import Mathlib

/-!
# Verification of the `colored-title-bar` color-generation core

Shallow embedding of `src/color-generator.ts` (the pure module the spec
calls THE CORE), of the spec's description of the seeded generator, and of
the settings-reset logic of `src/title-bar-manager.ts`.

Numbers: the TypeScript module computes with IEEE doubles; the embedding
uses exact arithmetic over a linear ordered field `K` with a floor
(instantiated at `ℝ` for the real-valued claims and at `ℚ` for concrete
evaluation), integers (`ℤ`) for RGB channels and the 32-bit hash state,
and `ℝ` for the WCAG luminance/contrast computations (which use the real
power `x ^ (2.4 : ℝ)`). JavaScript bitwise operators are modelled by
explicit two's-complement conversions (`toInt32`, `toUint32`); the
JavaScript `%` remainder (sign of the dividend) is `jsRem` on `ℤ` and
`jsMod` on `K`; `Math.round` is Mathlib's `round` (`⌊x + 1/2⌋`, i.e.
round-half-up, JavaScript's behavior); `charCodeAt` is `Char.toNat`
(the two agree on the BMP strings the extension hashes). `parseInt(s, 16)`
is modelled on strings that start with a hex digit, and `NaN`-producing
parses are modelled as `none` (in the source a `NaN` channel makes every
contrast comparison false, which the embedding mirrors in
`chooseForeground`).
-/

set_option maxRecDepth 40000

/-- Simplified theme classification (`src/types.ts`, `ThemeKind`). -/
inductive ThemeKind : Type
  | Dark
  | Light
  | HighContrast
deriving DecidableEq, Repr

/-- HSL color (`src/types.ts`): hue in degrees, saturation/lightness in
percent. -/
structure HSL (K : Type) where
  h : K
  s : K
  l : K
deriving DecidableEq, Repr

/-- RGB color (`src/types.ts`): integer channels (every producer in the
module rounds or parses to integers). -/
structure RGB where
  r : ℤ
  g : ℤ
  b : ℤ
deriving DecidableEq, Repr

/-- Complete set of title bar color overrides (`src/types.ts`). -/
structure TitleBarColors where
  activeBackground : String
  activeForeground : String
  inactiveBackground : String
  inactiveForeground : String
  border : String
deriving DecidableEq, Repr

/-! ## Deterministic hash (`src/color-generator.ts` lines 14-36) -/

/-- JavaScript `ToUint32`: reduce an integer to `[0, 2^32)`. -/
def toUint32 (n : ℤ) : ℕ :=
  (n % (2 ^ 32 : ℤ)).toNat

/-- JavaScript `ToInt32`: reduce an integer to `[-2^31, 2^31)`. -/
def toInt32 (n : ℤ) : ℤ :=
  let m := n % (2 ^ 32 : ℤ)
  if m < 2 ^ 31 then m else m - 2 ^ 32

/-- JavaScript `x << 5` on an integer-valued number: `ToInt32`, shift,
wrap back to a signed 32-bit result. -/
def jsShl5 (n : ℤ) : ℤ :=
  toInt32 (toInt32 n * 32)

/-- JavaScript `%` on integers: remainder carrying the dividend's sign. -/
def jsRem (a : ℤ) (n : ℤ) : ℤ :=
  if 0 ≤ a then a % n else -((-a) % n)

/-- One iteration of the DJB2-style loop shared by `hashStringToHue` and
`hashStringToFloat`: `hash = ((hash << 5) + hash + code) >>> 0`. -/
def hashStep (h : ℤ) (code : ℕ) : ℕ :=
  toUint32 (jsShl5 h + h + code)

/-- The rolling hash: fold `hashStep` over the string's character codes. -/
def hashString (init : ℤ) (input : String) : ℤ :=
  input.data.foldl (fun h c => (hashStep h c.toNat : ℤ)) init

/-- `hashStringToHue` (lines 18-24): DJB2 hash seeded with 5381, reduced
`% 360`. -/
def hashStringToHue (input : String) : ℤ :=
  jsRem (hashString 5381 input) 360

section FieldDefs

variable {K : Type} [LinearOrderedField K] [FloorRing K]

/-- `hashStringToFloat` (lines 30-36): the same rolling hash seeded with
`5381 + seed`, reduced `% 10000` and divided by 10000. -/
def hashStringToFloat (input : String) (seed : ℤ) : K :=
  ((jsRem (hashString (5381 + seed) input) 10000 : ℤ) : K) / 10000

/-- `clamp(value, min, max)` (lines 10-12): `Math.min(Math.max(value, min), max)`
(the bounds are renamed `lo`/`hi` here to avoid shadowing `min`/`max`). -/
def clamp (value lo hi : K) : K :=
  min (max value lo) hi

/-- JavaScript's truncating integer part (its division-based `%` rounds the
quotient toward zero). -/
def trunc (x : K) : ℤ :=
  if 0 ≤ x then ⌊x⌋ else ⌈x⌉

/-- JavaScript `%` on numbers: `a - n * trunc (a / n)`, the remainder with
the dividend's sign. -/
def jsMod (a n : K) : K :=
  a - n * (trunc (a / n) : K)

/-! ## Colorspace conversions (`src/color-generator.ts` lines 43-94) -/

/-- The hue normalization opening `hslToRgb` (line 44):
`((h % 360) + 360) % 360`. -/
def hueNorm (h : K) : K :=
  jsMod (jsMod h 360 + 360) 360

/-- `hslToRgb` (lines 43-73): the standard piecewise HSL→RGB formula with
six 60°-sectors, each channel rounded to an integer. -/
def hslToRgb (hsl : HSL K) : RGB :=
  let hn := hueNorm hsl.h
  let sn := hsl.s / 100
  let ln := hsl.l / 100
  let c := (1 - |2 * ln - 1|) * sn
  let x := c * (1 - |jsMod (hn / 60) 2 - 1|)
  let m := ln - c / 2
  let rgb :=
    if hn < 60 then (c, x, (0 : K))
    else if hn < 120 then (x, c, 0)
    else if hn < 180 then (0, c, x)
    else if hn < 240 then (0, x, c)
    else if hn < 300 then (x, 0, c)
    else (c, 0, x)
  ⟨round ((rgb.1 + m) * 255), round ((rgb.2.1 + m) * 255), round ((rgb.2.2 + m) * 255)⟩

end FieldDefs

/-- One channel of `rgbToHex`'s formatter (line 77): `n.toString(16)` for an
integer value. -/
def toHexDigits (n : ℤ) : List Char :=
  if n < 0 then '-' :: Nat.toDigits 16 (-n).toNat else Nat.toDigits 16 n.toNat

/-- `padStart(2, "0")` on a character list. -/
def padStartTwo (cs : List Char) : List Char :=
  List.replicate (2 - cs.length) '0' ++ cs

/-- The per-channel formatter of `rgbToHex` (line 77):
`n.toString(16).padStart(2, "0")`. -/
def hexByte (n : ℤ) : String :=
  ⟨padStartTwo (toHexDigits n)⟩

/-- `rgbToHex` (lines 76-79): `#` followed by the three zero-padded
lowercase hex channels. -/
def rgbToHex (rgb : RGB) : String :=
  "#" ++ hexByte rgb.r ++ hexByte rgb.g ++ hexByte rgb.b

/-- The value of a hex digit character, as `parseInt(_, 16)` accepts them
(also uppercase). -/
def hexDigitVal (c : Char) : Option ℕ :=
  if '0' ≤ c ∧ c ≤ '9' then some (c.toNat - 48)
  else if 'a' ≤ c ∧ c ≤ 'f' then some (c.toNat - 87)
  else if 'A' ≤ c ∧ c ≤ 'F' then some (c.toNat - 55)
  else none

/-- Accumulate the longest hex-digit prefix, as `parseInt(_, 16)` does. -/
def hexDigitsVal : List Char → ℕ → ℕ
  | [], acc => acc
  | c :: cs, acc =>
    match hexDigitVal c with
    | some d => hexDigitsVal cs (16 * acc + d)
    | none => acc

/-- `parseInt(s, 16)` on the slices `hexToRgb` feeds it: the value of the
longest hex-digit prefix, `none` (the source's `NaN`) when the string does
not start with a hex digit. -/
def parseInt16 (s : String) : Option ℤ :=
  match s.data with
  | [] => none
  | c :: _ => if (hexDigitVal c).isSome then some ((hexDigitsVal s.data 0 : ℕ) : ℤ) else none

/-- JavaScript `s.slice(a, b)` for `0 ≤ a ≤ b` within the string. -/
def jsSlice (s : String) (a b : ℕ) : String :=
  ⟨(s.data.drop a).take (b - a)⟩

/-- `hex.replace(/^#/, "")` (line 83): drop one leading `#`. -/
def stripLeadingHash (s : String) : String :=
  match s.data with
  | '#' :: rest => ⟨rest⟩
  | _ => s

/-- `hexToRgb` (lines 82-89): strip a leading `#`, parse the three 2-digit
slices; a `NaN`-bearing result is modelled as `none`. -/
def hexToRgb (hex : String) : Option RGB :=
  let h := stripLeadingHash hex
  match parseInt16 (jsSlice h 0 2), parseInt16 (jsSlice h 2 4), parseInt16 (jsSlice h 4 6) with
  | some r, some g, some b => some ⟨r, g, b⟩
  | _, _, _ => none

/-- `hslToHex` (lines 92-94): HSL → RGB → hex. -/
def hslToHex {K : Type} [LinearOrderedField K] [FloorRing K] (hsl : HSL K) : String :=
  rgbToHex (hslToRgb hsl)

/-! ## Contrast helpers, WCAG 2.0 (`src/color-generator.ts` lines 101-127) -/

/-- The per-channel linearization inside `relativeLuminance` (lines 102-105):
`s/12.92` below the 0.03928 knee, else `((s + 0.055)/1.055)^2.4`. -/
noncomputable def linearize (c : ℤ) : ℝ :=
  let s := (c : ℝ) / 255
  if s ≤ 0.03928 then s / 12.92 else ((s + 0.055) / 1.055) ^ (2.4 : ℝ)

/-- `relativeLuminance` (lines 101-107): the WCAG weighted sum of the
linearized channels. -/
noncomputable def relativeLuminance (rgb : RGB) : ℝ :=
  0.2126 * linearize rgb.r + 0.7152 * linearize rgb.g + 0.0722 * linearize rgb.b

/-- `contrastRatio` (lines 110-116): `(lighter + 0.05) / (darker + 0.05)`. -/
noncomputable def contrastRatio (a b : RGB) : ℝ :=
  let la := relativeLuminance a
  let lb := relativeLuminance b
  let lighter := max la lb
  let darker := min la lb
  (lighter + 0.05) / (darker + 0.05)

/-- `chooseForeground` (lines 122-127): white when its contrast ratio
against the background is at least the black one, else black. A failed
parse (`NaN` channels) makes the source's `>=` comparison false, so it
also yields black. -/
noncomputable def chooseForeground (backgroundHex : String) : String :=
  match hexToRgb backgroundHex with
  | none => "#000000"
  | some bg =>
    let white : RGB := ⟨255, 255, 255⟩
    let black : RGB := ⟨0, 0, 0⟩
    if contrastRatio bg white ≥ contrastRatio bg black then "#ffffff" else "#000000"

/-! ## Derived colors (`src/color-generator.ts` lines 206-234) -/

section DerivedDefs

variable {K : Type} [LinearOrderedField K] [FloorRing K]

/-- `deriveInactiveHsl` (lines 206-216): saturation scaled by 0.65,
lightness nudged +5 (Light) or −3 (otherwise), both clamped. -/
def deriveInactiveHsl (hsl : HSL K) (theme : ThemeKind) : HSL K :=
  { h := hsl.h
    s := clamp (hsl.s * 0.65) 0 100
    l := clamp (if theme = ThemeKind.Light then hsl.l + 5 else hsl.l - 3) 0 100 }

/-- `deriveInactiveForeground` (lines 219-221): append the fixed `cc`
(≈ 80 % opacity) alpha suffix. -/
def deriveInactiveForeground (activeForeground : String) : String :=
  activeForeground ++ "cc"

/-- `deriveBorderHsl` (lines 224-234): saturation scaled by 0.6, lightness
lowered by 12 (Light) or 6 (otherwise), both clamped. -/
def deriveBorderHsl (hsl : HSL K) (theme : ThemeKind) : HSL K :=
  { h := hsl.h
    s := clamp (hsl.s * 0.6) 0 100
    l := clamp (if theme = ThemeKind.Light then hsl.l - 12 else hsl.l - 6) 0 100 }

/-! ## Full title-bar color set (`src/color-generator.ts` lines 241-293) -/

/-- `titleBarColorsFromHsl` (lines 241-249): assemble the five hex values
from a base HSL and theme. -/
noncomputable def titleBarColorsFromHsl (hsl : HSL K) (theme : ThemeKind) : TitleBarColors :=
  let activeBackground := hslToHex hsl
  let activeForeground := chooseForeground activeBackground
  let inactiveBackground := hslToHex (deriveInactiveHsl hsl theme)
  let inactiveForeground := deriveInactiveForeground activeForeground
  let border := hslToHex (deriveBorderHsl hsl theme)
  ⟨activeBackground, activeForeground, inactiveBackground, inactiveForeground, border⟩

/-- `generateTitleBarColorsFromSeed` (lines 270-293): hue from
`hashStringToHue`, saturation/lightness from `hashStringToFloat` with
seed offsets 1 and 2, scaled into the per-theme ranges. -/
noncomputable def generateTitleBarColorsFromSeed (seed : String) (theme : ThemeKind) :
    TitleBarColors :=
  let hue := hashStringToHue seed
  let sFloat : K := hashStringToFloat seed 1
  let lFloat : K := hashStringToFloat seed 2
  let sl : K × K :=
    match theme with
    | ThemeKind.Light => (25 + sFloat * 60, 65 + lFloat * 25)
    | ThemeKind.HighContrast => (40 + sFloat * 50, 10 + lFloat * 18)
    | ThemeKind.Dark => (20 + sFloat * 65, 12 + lFloat * 28)
  titleBarColorsFromHsl ⟨(hue : K), sl.1, sl.2⟩ theme

/-! ## The spec's theme table and its wording of the seeded generator -/

/-- The saturation range of the spec's §4.4 theme table (also the ranges in
the claim and in the source's comment at lines 136-141). -/
def themeSatRange (theme : ThemeKind) : K × K :=
  match theme with
  | ThemeKind.Dark => (20, 85)
  | ThemeKind.Light => (25, 85)
  | ThemeKind.HighContrast => (40, 90)

/-- The lightness range of the spec's §4.4 theme table. -/
def themeLightRange (theme : ThemeKind) : K × K :=
  match theme with
  | ThemeKind.Dark => (12, 40)
  | ThemeKind.Light => (65, 90)
  | ThemeKind.HighContrast => (10, 28)

/-- The seeded generator as the spec's §4.4 words it: hue from
`hashStringToHue(seed)`, saturation and lightness from two independent
calls `hashStringToFloat(seed, offsetA)` / `hashStringToFloat(seed,
offsetB)` (offsets 1 and 2) mapped linearly into the theme's range from
the table. Stated for comparison with `generateTitleBarColorsFromSeed`. -/
noncomputable def seededColorsPerSpec (seed : String) (theme : ThemeKind) : TitleBarColors :=
  let hue := hashStringToHue seed
  let s : K := (themeSatRange theme).1 +
    hashStringToFloat seed 1 * ((themeSatRange theme).2 - (themeSatRange theme).1)
  let l : K := (themeLightRange theme).1 +
    hashStringToFloat seed 2 * ((themeLightRange theme).2 - (themeLightRange theme).1)
  titleBarColorsFromHsl ⟨(hue : K), s, l⟩ theme

end DerivedDefs

/-! ## Settings reset (`src/title-bar-manager.ts`, `resetColors`) -/

/-- The five keys the extension writes (`TITLE_BAR_KEYS`). -/
def TITLE_BAR_KEYS : List String :=
  ["titleBar.activeBackground", "titleBar.activeForeground",
   "titleBar.inactiveBackground", "titleBar.inactiveForeground", "titleBar.border"]

/-- The `delete updated[key]` loop of `resetColors`: drop the five
title-bar keys from the color-customization map (modelled as an
association list). -/
def removeTitleBarKeys (current : List (String × String)) : List (String × String) :=
  current.filter (fun kv => !TITLE_BAR_KEYS.contains kv.1)

/-- The value `resetColors` writes back:
`Object.keys(updated).length === 0 ? undefined : updated` (`undefined`,
which clears the setting, is modelled as `none`). -/
def resetColorCustomizations (current : List (String × String)) :
    Option (List (String × String)) :=
  let updated := removeTitleBarKeys current
  if updated.isEmpty then none else some updated

/-! ## Bounds for the JavaScript remainder and the hue normalization -/

lemma round_channel_mem {K : Type} [LinearOrderedField K] [FloorRing K] {v : K}
    (h0 : 0 ≤ v) (h1 : v ≤ 1) : 0 ≤ round (v * 255) ∧ round (v * 255) ≤ 255 := by
  rw [round_eq]
  constructor
  · exact Int.le_floor.mpr (by push_cast; nlinarith)
  · have h2 : ⌊v * 255 + 1 / 2⌋ < 256 := Int.floor_lt.mpr (by push_cast; nlinarith)
    omega

lemma trunc_of_nonneg {K : Type} [LinearOrderedField K] [FloorRing K] {x : K} (hx : 0 ≤ x) :
    trunc x = ⌊x⌋ := if_pos hx

lemma jsMod_nonneg_bounds {K : Type} [LinearOrderedField K] [FloorRing K] {a n : K}
    (hn : 0 < n) (ha : 0 ≤ a) : 0 ≤ jsMod a n ∧ jsMod a n < n := by
  have hdiv : (0 : K) ≤ a / n := div_nonneg ha hn.le
  rw [jsMod, trunc_of_nonneg hdiv]
  constructor
  · have h1 : (⌊a / n⌋ : K) * n ≤ a := (le_div_iff₀ hn).mp (Int.floor_le (a / n))
    nlinarith
  · have h2 : a < ((⌊a / n⌋ : K) + 1) * n := (div_lt_iff₀ hn).mp (Int.lt_floor_add_one (a / n))
    nlinarith

lemma jsMod_neg_bounds {K : Type} [LinearOrderedField K] [FloorRing K] {a n : K}
    (hn : 0 < n) (ha : a < 0) : -n < jsMod a n ∧ jsMod a n ≤ 0 := by
  have hdiv : a / n < 0 := div_neg_of_neg_of_pos ha hn
  rw [jsMod, trunc, if_neg (by linarith)]
  have h1 : a ≤ (⌈a / n⌉ : K) * n := by
    have := Int.le_ceil (a / n)
    nlinarith [(div_le_iff₀ hn).mp (Int.le_ceil (a / n))]
  have h2 : (⌈a / n⌉ : K) * n < a + n := by
    have h3 : (⌈a / n⌉ : K) < a / n + 1 := Int.ceil_lt_add_one (a / n)
    have h4 : a / n * n = a := div_mul_cancel₀ a hn.ne.symm
    nlinarith
  constructor <;> nlinarith

lemma hueNorm_mem {K : Type} [LinearOrderedField K] [FloorRing K] (h : K) :
    0 ≤ hueNorm h ∧ hueNorm h < 360 := by
  rw [hueNorm]
  rcases le_or_lt 0 h with h0 | h0
  · have hi := jsMod_nonneg_bounds (show (0 : K) < 360 by norm_num) h0
    exact jsMod_nonneg_bounds (by norm_num) (by linarith [hi.1])
  · have hi := jsMod_neg_bounds (show (0 : K) < 360 by norm_num) h0
    exact jsMod_nonneg_bounds (by norm_num) (by linarith [hi.1])

set_option maxHeartbeats 1000000 in
lemma hslToRgb_channel_bounds {K : Type} [LinearOrderedField K] [FloorRing K] (hsl : HSL K)
    (hs0 : 0 ≤ hsl.s) (hs1 : hsl.s ≤ 100) (hl0 : 0 ≤ hsl.l) (hl1 : hsl.l ≤ 100) :
    (0 ≤ (hslToRgb hsl).r ∧ (hslToRgb hsl).r ≤ 255) ∧
    (0 ≤ (hslToRgb hsl).g ∧ (hslToRgb hsl).g ≤ 255) ∧
    (0 ≤ (hslToRgb hsl).b ∧ (hslToRgb hsl).b ≤ 255) := by
  obtain ⟨hn0, hn1⟩ := hueNorm_mem (K := K) hsl.h
  have hsn0 : (0 : K) ≤ hsl.s / 100 := div_nonneg hs0 (by norm_num)
  have hsn1 : hsl.s / 100 ≤ 1 := (div_le_one (by norm_num)).mpr hs1
  have hln0 : (0 : K) ≤ hsl.l / 100 := div_nonneg hl0 (by norm_num)
  have hln1 : hsl.l / 100 ≤ 1 := (div_le_one (by norm_num)).mpr hl1
  simp only [hslToRgb]
  set hn := hueNorm hsl.h with hhn
  set c := (1 - |2 * (hsl.l / 100) - 1|) * (hsl.s / 100) with hcdef
  set x := c * (1 - |jsMod (hn / 60) 2 - 1|) with hxdef
  set m := hsl.l / 100 - c / 2 with hmdef
  have habs : |2 * (hsl.l / 100) - 1| ≤ 1 := abs_le.mpr ⟨by linarith, by linarith⟩
  have habs0 : 0 ≤ |2 * (hsl.l / 100) - 1| := abs_nonneg _
  have hc0 : 0 ≤ c := mul_nonneg (by linarith) hsn0
  have hcbase : c ≤ 1 - |2 * (hsl.l / 100) - 1| := by
    calc c ≤ (1 - |2 * (hsl.l / 100) - 1|) * 1 :=
          mul_le_mul_of_nonneg_left hsn1 (by linarith)
      _ = 1 - |2 * (hsl.l / 100) - 1| := mul_one _
  have hcup1 : c ≤ 2 * (hsl.l / 100) := by
    have h2 := neg_le_abs (2 * (hsl.l / 100) - 1)
    linarith
  have hcup2 : c ≤ 2 - 2 * (hsl.l / 100) := by
    have h2 := le_abs_self (2 * (hsl.l / 100) - 1)
    linarith
  have hm0 : 0 ≤ m := by rw [hmdef]; linarith
  have hy := jsMod_nonneg_bounds (show (0 : K) < 2 by norm_num)
    (div_nonneg hn0 (by norm_num : (0 : K) ≤ 60))
  have habs2 : |jsMod (hn / 60) 2 - 1| ≤ 1 := abs_le.mpr ⟨by linarith [hy.1], by linarith [hy.2]⟩
  have habs2' : 0 ≤ |jsMod (hn / 60) 2 - 1| := abs_nonneg _
  have hx0 : 0 ≤ x := mul_nonneg hc0 (by linarith)
  have hxc : x ≤ c := mul_le_of_le_one_right hc0 (by linarith)
  have Hc := round_channel_mem (show (0:K) ≤ c + m by linarith)
    (show c + m ≤ 1 by rw [hmdef]; linarith)
  have Hx := round_channel_mem (show (0:K) ≤ x + m by linarith)
    (show x + m ≤ 1 by rw [hmdef]; linarith)
  have H0 := round_channel_mem (show (0:K) ≤ 0 + m by linarith)
    (show (0:K) + m ≤ 1 by rw [hmdef]; linarith)
  split_ifs <;>
  · refine ⟨⟨?_, ?_⟩, ⟨?_, ?_⟩, ?_, ?_⟩ <;> dsimp only <;>
      first
        | exact Hc.1 | exact Hc.2 | exact Hx.1 | exact Hx.2 | exact H0.1 | exact H0.2

/-! ## Claim C4: totality and channel range of `hslToRgb` -/

/-- C4 (amended): for every input with `s` and `l` in `[0, 100]` (and `h`
unrestricted), `hslToRgb` returns integer channels inside `[0, 255]`, with
no error condition. (As claimed, with the domain unrestricted, the bound
fails: see the counterexample at `l = 200`.) -/
theorem hslToRgb_in_range {K : Type} [LinearOrderedField K] [FloorRing K] (hsl : HSL K)
    (hs0 : 0 ≤ hsl.s) (hs1 : hsl.s ≤ 100) (hl0 : 0 ≤ hsl.l) (hl1 : hsl.l ≤ 100) :
    0 ≤ (hslToRgb hsl).r ∧ (hslToRgb hsl).r ≤ 255 ∧
    0 ≤ (hslToRgb hsl).g ∧ (hslToRgb hsl).g ≤ 255 ∧
    0 ≤ (hslToRgb hsl).b ∧ (hslToRgb hsl).b ≤ 255 := by
  obtain ⟨⟨h1, h2⟩, ⟨h3, h4⟩, h5, h6⟩ := hslToRgb_channel_bounds hsl hs0 hs1 hl0 hl1
  exact ⟨h1, h2, h3, h4, h5, h6⟩

/-- C4, witness: the amended theorem applied at `{h := 0, s := 0, l := 50}`. -/
theorem hslToRgb_in_range_witness :
    0 ≤ (hslToRgb (K := ℚ) ⟨0, 0, 50⟩).r ∧ (hslToRgb (K := ℚ) ⟨0, 0, 50⟩).r ≤ 255 ∧
    0 ≤ (hslToRgb (K := ℚ) ⟨0, 0, 50⟩).g ∧ (hslToRgb (K := ℚ) ⟨0, 0, 50⟩).g ≤ 255 ∧
    0 ≤ (hslToRgb (K := ℚ) ⟨0, 0, 50⟩).b ∧ (hslToRgb (K := ℚ) ⟨0, 0, 50⟩).b ≤ 255 :=
  hslToRgb_in_range ⟨0, 0, 50⟩ (by decide) (by decide) (by decide) (by decide)

/-- C4, counterexample to the claim as stated: with the domain unrestricted,
`hslToRgb {h := 0, s := 0, l := 200}` has every channel equal to 510,
outside `[0, 255]`. -/
theorem hslToRgb_out_of_range_example :
    hslToRgb (K := ℚ) ⟨0, 0, 200⟩ = ⟨510, 510, 510⟩ ∧
    ¬ (hslToRgb (K := ℚ) ⟨0, 0, 200⟩).r ≤ 255 := by
  have h1 : hslToRgb (K := ℚ) ⟨0, 0, 200⟩ = ⟨510, 510, 510⟩ := by with_unfolding_all rfl
  exact ⟨h1, by rw [h1]; decide⟩

/-! ## Claim C8: the border keeps the hue and is darker -/

/-- C8 (amended): for every HSL with `h ∈ [0, 360)` and `s, l ∈ [0, 100]`
and every theme, `deriveBorderHsl` keeps the hue unchanged and its
lightness never exceeds the active lightness, strictly below it whenever
the active lightness is positive. (As claimed — strictly less with no
positivity proviso — it fails at `l = 0`: see the counterexample.) -/
theorem deriveBorderHsl_keeps_hue_darkens {K : Type} [LinearOrderedField K] [FloorRing K]
    (hsl : HSL K) (theme : ThemeKind)
    (hh0 : 0 ≤ hsl.h) (hh1 : hsl.h < 360)
    (hs0 : 0 ≤ hsl.s) (hs1 : hsl.s ≤ 100) (hl0 : 0 ≤ hsl.l) (hl1 : hsl.l ≤ 100) :
    (deriveBorderHsl hsl theme).h = hsl.h ∧
    (deriveBorderHsl hsl theme).l ≤ hsl.l ∧
    (0 < hsl.l → (deriveBorderHsl hsl theme).l < hsl.l) := by
  refine ⟨rfl, ?_, ?_⟩
  · simp only [deriveBorderHsl, clamp]
    have hv : (if theme = ThemeKind.Light then hsl.l - 12 else hsl.l - 6) ≤ hsl.l := by
      split_ifs <;> linarith
    exact le_trans (min_le_left _ _) (max_le hv hl0)
  · intro hpos
    simp only [deriveBorderHsl, clamp]
    have hv : (if theme = ThemeKind.Light then hsl.l - 12 else hsl.l - 6) < hsl.l := by
      split_ifs <;> linarith
    exact lt_of_le_of_lt (min_le_left _ _) (max_lt hv hpos)

/-- C8, witness: the amended theorem applied at `{h := 0, s := 50, l := 30}`
for the Dark theme. -/
theorem deriveBorderHsl_keeps_hue_darkens_witness :
    (deriveBorderHsl (K := ℚ) ⟨0, 50, 30⟩ ThemeKind.Dark).h = (0 : ℚ) ∧
    (deriveBorderHsl (K := ℚ) ⟨0, 50, 30⟩ ThemeKind.Dark).l ≤ (30 : ℚ) ∧
    ((0 : ℚ) < 30 → (deriveBorderHsl (K := ℚ) ⟨0, 50, 30⟩ ThemeKind.Dark).l < (30 : ℚ)) :=
  deriveBorderHsl_keeps_hue_darkens ⟨0, 50, 30⟩ ThemeKind.Dark
    (by decide) (by decide) (by decide) (by decide) (by decide) (by decide)

/-- C8, counterexample to the claim as stated: at lightness 0 (inside the
claimed domain) the border lightness clamps to 0 and is not strictly less
than the active lightness. -/
theorem deriveBorderHsl_zero_lightness_example :
    (deriveBorderHsl (K := ℚ) ⟨0, 50, 0⟩ ThemeKind.Dark).l = 0 ∧
    ¬ (deriveBorderHsl (K := ℚ) ⟨0, 50, 0⟩ ThemeKind.Dark).l < (0 : ℚ) := by
  have h1 : (deriveBorderHsl (K := ℚ) ⟨0, 50, 0⟩ ThemeKind.Dark).l = 0 := by
    with_unfolding_all rfl
  exact ⟨h1, by rw [h1]; decide⟩

/-! ## Claim C5: foreground literals and the alpha suffix -/

lemma chooseForeground_cases (s : String) :
    chooseForeground s = "#ffffff" ∨ chooseForeground s = "#000000" := by
  unfold chooseForeground
  cases hx : hexToRgb s with
  | none => exact Or.inr rfl
  | some bg =>
    dsimp only
    split_ifs
    · exact Or.inl rfl
    · exact Or.inr rfl

/-- C5: for every base HSL and theme, the assembled `activeForeground` is
exactly `"#ffffff"` or `"#000000"`, and `inactiveForeground` is the
`activeForeground` with the fixed two-hex-digit alpha suffix appended
(9 characters, i.e. 8 hex digits after the `#`). -/
theorem activeForeground_literal {K : Type} [LinearOrderedField K] [FloorRing K]
    (hsl : HSL K) (theme : ThemeKind) :
    ((titleBarColorsFromHsl hsl theme).activeForeground = "#ffffff" ∨
      (titleBarColorsFromHsl hsl theme).activeForeground = "#000000") ∧
    (titleBarColorsFromHsl hsl theme).inactiveForeground
      = (titleBarColorsFromHsl hsl theme).activeForeground ++ "cc" ∧
    ((titleBarColorsFromHsl hsl theme).inactiveForeground).length = 9 := by
  have hAF : (titleBarColorsFromHsl hsl theme).activeForeground
      = chooseForeground (hslToHex hsl) := rfl
  have hIF : (titleBarColorsFromHsl hsl theme).inactiveForeground
      = deriveInactiveForeground (chooseForeground (hslToHex hsl)) := rfl
  refine ⟨?_, ?_, ?_⟩
  · rw [hAF]
    exact chooseForeground_cases _
  · rw [hIF, hAF]
    rfl
  · rw [hIF]
    rcases chooseForeground_cases (hslToHex hsl) with h | h <;> rw [h] <;> decide

/-! ## Claim C6: `deriveInactiveForeground` appends the `cc` suffix -/

/-- A lowercase hex digit, as in the test suite's `HEX6` pattern. -/
def isLowerHexDigit (c : Char) : Bool :=
  ('0' ≤ c && c ≤ '9') || ('a' ≤ c && c ≤ 'f')

/-- The test suite's `HEX6` pattern `^#[0-9a-f]{6}$` as a predicate: the
6-digit hex color strings. -/
def isHex6 (s : String) : Bool :=
  match s.data with
  | '#' :: rest => rest.length == 6 && rest.all isLowerHexDigit
  | _ => false

/-- C6: on every 6-digit hex color string, `deriveInactiveForeground`
returns exactly the input with the two-hex-digit alpha suffix `cc`
appended, an 8-digit (9-character) result. -/
theorem deriveInactiveForeground_appends_cc (s : String) (h : isHex6 s = true) :
    deriveInactiveForeground s = s ++ "cc" ∧ (deriveInactiveForeground s).length = 9 := by
  refine ⟨rfl, ?_⟩
  cases s with
  | mk cs =>
    unfold isHex6 at h
    split at h
    next rst heq =>
      have hcs : cs = '#' :: rst := by simpa using heq
      have hlen : rst.length = 6 := by
        have h2 := (Bool.and_eq_true _ _).mp h
        simpa using h2.1
      have hcc : ("cc" : String).length = 2 := rfl
      rw [deriveInactiveForeground, String.length_append, hcc]
      show cs.length + 2 = 9
      rw [hcs]
      simp [hlen]
    next => exact absurd h (by simp)

/-- C6, witness: the theorem applied at `"#ffffff"`. -/
theorem deriveInactiveForeground_appends_cc_witness :
    deriveInactiveForeground "#ffffff" = "#ffffff" ++ "cc" ∧
    (deriveInactiveForeground "#ffffff").length = 9 :=
  deriveInactiveForeground_appends_cc "#ffffff" (by decide)

/-! ## Claim C7: `hashStringToFloat` is total with values in `[0, 1)` -/

lemma foldl_hashStep_nonneg (cs : List Char) :
    ∀ init : ℤ, 0 ≤ init → 0 ≤ cs.foldl (fun h c => (hashStep h c.toNat : ℤ)) init := by
  induction cs with
  | nil => intro init h; simpa using h
  | cons c tl ih =>
    intro init h
    rw [List.foldl_cons]
    exact ih _ (Int.natCast_nonneg _)

lemma hashString_nonneg_of_ne_nil {input : String} (h : input.data ≠ []) (init : ℤ) :
    0 ≤ hashString init input := by
  rw [hashString]
  rcases hd : input.data with _ | ⟨c, cs⟩
  · exact absurd hd h
  · rw [List.foldl_cons]
    exact foldl_hashStep_nonneg cs _ (Int.natCast_nonneg _)

/-- C7 (amended): `hashStringToFloat` is total, and returns a value in
`[0, 1)` whenever the input is nonempty or the seed offset is at least
`-5381`. (As claimed — for every integer seed offset, including on the
empty string — it fails: see the counterexample at seed `-5382`.) -/
theorem hashStringToFloat_in_unit {K : Type} [LinearOrderedField K] [FloorRing K]
    (input : String) (seed : ℤ) (h : input ≠ "" ∨ -5381 ≤ seed) :
    0 ≤ (hashStringToFloat input seed : K) ∧ (hashStringToFloat input seed : K) < 1 := by
  have hh : 0 ≤ hashString (5381 + seed) input := by
    rcases hd : input.data with _ | ⟨c, cs⟩
    · have hempty : input = "" := by cases input with | mk l => simp_all
      rcases h with h | h
      · exact absurd hempty h
      · rw [hashString, hd]
        simp only [List.foldl_nil]
        linarith
    · exact hashString_nonneg_of_ne_nil (by rw [hd]; simp) _
  have hrem : 0 ≤ jsRem (hashString (5381 + seed) input) 10000 ∧
      jsRem (hashString (5381 + seed) input) 10000 < 10000 := by
    rw [jsRem, if_pos hh]
    exact ⟨Int.emod_nonneg _ (by norm_num), Int.emod_lt_of_pos _ (by norm_num)⟩
  rw [hashStringToFloat]
  constructor
  · exact div_nonneg (by exact_mod_cast hrem.1) (by norm_num)
  · rw [div_lt_one (by norm_num)]
    exact_mod_cast hrem.2

/-- C7, witness: the theorem applied at input `"test"` and seed offset 1. -/
theorem hashStringToFloat_in_unit_witness :
    0 ≤ (hashStringToFloat "test" 1 : ℚ) ∧ (hashStringToFloat "test" 1 : ℚ) < 1 :=
  hashStringToFloat_in_unit "test" 1 (Or.inl (by decide))

/-- C7, counterexample to the claim as stated: on the empty string with
seed offset `-5382` the JavaScript remainder is negative, and the result
`-1/10000` lies outside `[0, 1)`. -/
theorem hashStringToFloat_negative_example :
    (hashStringToFloat "" (-5382) : ℚ) = -1 / 10000 ∧
    ¬ 0 ≤ (hashStringToFloat "" (-5382) : ℚ) := by
  have h1 : (hashStringToFloat "" (-5382) : ℚ) = -1 / 10000 := by with_unfolding_all rfl
  refine ⟨h1, ?_⟩
  rw [h1]
  norm_num

/-! ## Claim C9: the reset removes exactly the five title-bar keys -/

lemma lookup_filter_none {p : String × String → Bool} {k : String}
    (hp : ∀ v, p (k, v) = false) (l : List (String × String)) :
    (l.filter p).lookup k = none := by
  induction l with
  | nil => rfl
  | cons kv tl ih =>
    obtain ⟨a, b⟩ := kv
    by_cases hka : k = a
    · subst hka
      simp [List.filter_cons, hp b, ih]
    · have hbeq : (k == a) = false := beq_eq_false_iff_ne.mpr hka
      cases hpb : p (a, b)
      · simp [List.filter_cons, hpb, ih]
      · simp [List.filter_cons, hpb, List.lookup_cons, hbeq, ih]

lemma lookup_filter_keep {p : String × String → Bool} {k : String}
    (hp : ∀ v, p (k, v) = true) (l : List (String × String)) :
    (l.filter p).lookup k = l.lookup k := by
  induction l with
  | nil => rfl
  | cons kv tl ih =>
    obtain ⟨a, b⟩ := kv
    by_cases hka : k = a
    · subst hka
      simp [List.filter_cons, hp b, List.lookup_cons, ih]
    · have hbeq : (k == a) = false := beq_eq_false_iff_ne.mpr hka
      cases hpb : p (a, b)
      · simp [List.filter_cons, hpb, List.lookup_cons, hbeq, ih]
      · simp [List.filter_cons, hpb, List.lookup_cons, hbeq, ih]

/-- C9: for every color-customization map, the reset removes exactly the
five `titleBar.*` keys (each looks up to `none` afterwards), leaves the
binding of every other key unchanged, and writes `undefined` (here
`none`) exactly when the remaining map is empty. -/
theorem resetColors_removes_exactly_titleBar_keys (current : List (String × String)) :
    (∀ k ∈ TITLE_BAR_KEYS, (removeTitleBarKeys current).lookup k = none) ∧
    (∀ k, k ∉ TITLE_BAR_KEYS → (removeTitleBarKeys current).lookup k = current.lookup k) ∧
    (resetColorCustomizations current = none ↔ removeTitleBarKeys current = []) := by
  refine ⟨?_, ?_, ?_⟩
  · intro k hk
    apply lookup_filter_none
    intro v
    simp [hk]
  · intro k hk
    apply lookup_filter_keep
    intro v
    simp [hk]
  · simp only [resetColorCustomizations]
    split_ifs with hempty
    · simp only [List.isEmpty_iff] at hempty
      simp [hempty]
    · simp only [List.isEmpty_iff] at hempty
      simp [hempty]

/-! ## Claim C3: the seeded generator refines the spec's description -/

/-- C3: for every seed string and theme, `generateTitleBarColorsFromSeed`
equals the spec-worded construction `seededColorsPerSpec`: hue from
`hashStringToHue`, saturation and lightness from `hashStringToFloat` with
offsets 1 and 2 mapped linearly onto the theme table's ranges (not from
the sinusoidal `hslFromHue` wave). -/
theorem seeded_generator_matches_spec_table {K : Type} [LinearOrderedField K] [FloorRing K]
    (seed : String) (theme : ThemeKind) :
    generateTitleBarColorsFromSeed (K := K) seed theme
      = seededColorsPerSpec (K := K) seed theme := by
  cases theme <;>
    simp only [generateTitleBarColorsFromSeed, seededColorsPerSpec, themeSatRange,
      themeLightRange] <;>
    norm_num

/-! ## Claim C2: determinism, and how seeds separate -/

/-- C2 (amended): the seeded generator is a pure function — two calls on
the same seed and theme agree — and distinct seeds do produce distinct
color sets in the spec's sample sense (`"project-alpha"` versus
`"project-beta"` give different active backgrounds). (As claimed — for
EVERY pair of distinct seeds — it fails: the DJB2 hash collides, see the
counterexample.) -/
theorem seeded_deterministic_sample_distinct :
    (∀ (K : Type) [LinearOrderedField K] [FloorRing K] (seed : String) (theme : ThemeKind),
      generateTitleBarColorsFromSeed (K := K) seed theme
        = generateTitleBarColorsFromSeed (K := K) seed theme) ∧
    (generateTitleBarColorsFromSeed (K := ℚ) "project-alpha" ThemeKind.Dark).activeBackground
      ≠ (generateTitleBarColorsFromSeed (K := ℚ) "project-beta"
          ThemeKind.Dark).activeBackground := by
  constructor
  · intro K i1 i2 seed theme
    rfl
  · have ha : (generateTitleBarColorsFromSeed (K := ℚ) "project-alpha"
        ThemeKind.Dark).activeBackground = "#5d0e24" := by
      with_unfolding_all rfl
    have hb : (generateTitleBarColorsFromSeed (K := ℚ) "project-beta"
        ThemeKind.Dark).activeBackground = "#6a6119" := by
      with_unfolding_all rfl
    rw [ha, hb]
    decide

/-- C2, counterexample to the claim as stated: the distinct seeds `"0a"`
and `"1@"` collide on every DJB2 channel (same length and same weighted
character sum), so their whole color sets are identical. -/
theorem seeded_collision_example :
    "0a" ≠ "1@" ∧
    generateTitleBarColorsFromSeed (K := ℚ) "0a" ThemeKind.Dark
      = generateTitleBarColorsFromSeed (K := ℚ) "1@" ThemeKind.Dark := by
  refine ⟨by decide, ?_⟩
  have h0 : hashString 5381 "0a" = hashString 5381 "1@" := by decide
  have h1 : hashString (5381 + 1) "0a" = hashString (5381 + 1) "1@" := by decide
  have h2 : hashString (5381 + 2) "0a" = hashString (5381 + 2) "1@" := by decide
  simp only [generateTitleBarColorsFromSeed, hashStringToHue, hashStringToFloat]
  rw [h0, h1, h2]

/-! ## Round trip: `hexToRgb` after `rgbToHex` -/

lemma hexByte_nat_spec :
    ∀ m : ℕ, m < 256 →
      parseInt16 (hexByte (m : ℤ)) = some (m : ℤ) ∧ (hexByte (m : ℤ)).data.length = 2 := by
  decide

lemma parseInt16_hexByte {n : ℤ} (h0 : 0 ≤ n) (h1 : n ≤ 255) :
    parseInt16 (hexByte n) = some n ∧ (hexByte n).data.length = 2 := by
  have hn : ((n.toNat : ℕ) : ℤ) = n := Int.toNat_of_nonneg h0
  have hlt : n.toNat < 256 := by omega
  have hspec := hexByte_nat_spec n.toNat hlt
  rwa [hn] at hspec

lemma stripLeadingHash_of_data {s : String} {rest : List Char} (h : s.data = '#' :: rest) :
    stripLeadingHash s = ⟨rest⟩ := by
  cases s with
  | mk cs =>
    have h2 : cs = '#' :: rest := h
    subst h2
    rfl

lemma jsSlice_triple {dr dg db : List Char}
    (lr : dr.length = 2) (lg : dg.length = 2) (lb : db.length = 2) :
    jsSlice ⟨dr ++ (dg ++ db)⟩ 0 2 = ⟨dr⟩ ∧
    jsSlice ⟨dr ++ (dg ++ db)⟩ 2 4 = ⟨dg⟩ ∧
    jsSlice ⟨dr ++ (dg ++ db)⟩ 4 6 = ⟨db⟩ := by
  refine ⟨?_, ?_, ?_⟩
  · show (⟨((dr ++ (dg ++ db)).drop 0).take (2 - 0)⟩ : String) = ⟨dr⟩
    rw [List.drop_zero]
    exact congrArg String.mk (List.take_left' lr)
  · show (⟨((dr ++ (dg ++ db)).drop 2).take (4 - 2)⟩ : String) = ⟨dg⟩
    rw [List.drop_left' lr]
    exact congrArg String.mk (List.take_left' lg)
  · show (⟨((dr ++ (dg ++ db)).drop 4).take (6 - 4)⟩ : String) = ⟨db⟩
    rw [← List.append_assoc]
    have h4 : (dr ++ dg).length = 4 := by rw [List.length_append, lr, lg]
    rw [List.drop_left' h4]
    have h2 : (6 - 4 : ℕ) = db.length := by omega
    exact congrArg String.mk (by rw [h2]; exact List.take_length db)

lemma hexToRgb_rgbToHex (rgb : RGB)
    (hr0 : 0 ≤ rgb.r) (hr1 : rgb.r ≤ 255) (hg0 : 0 ≤ rgb.g) (hg1 : rgb.g ≤ 255)
    (hb0 : 0 ≤ rgb.b) (hb1 : rgb.b ≤ 255) :
    hexToRgb (rgbToHex rgb) = some rgb := by
  obtain ⟨pr, lr⟩ := parseInt16_hexByte hr0 hr1
  obtain ⟨pg, lg⟩ := parseInt16_hexByte hg0 hg1
  obtain ⟨pb, lb⟩ := parseInt16_hexByte hb0 hb1
  have hdata : (rgbToHex rgb).data
      = '#' :: ((hexByte rgb.r).data ++ ((hexByte rgb.g).data ++ (hexByte rgb.b).data)) := by
    simp [rgbToHex]
  have hstrip : stripLeadingHash (rgbToHex rgb)
      = ⟨(hexByte rgb.r).data ++ ((hexByte rgb.g).data ++ (hexByte rgb.b).data)⟩ :=
    stripLeadingHash_of_data hdata
  obtain ⟨hs1, hs2, hs3⟩ := jsSlice_triple lr lg lb
  have heta : ∀ t : String, (⟨t.data⟩ : String) = t := fun t => rfl
  rw [hexToRgb, hstrip, hs1, hs2, hs3, heta, heta, heta, pr, pg, pb]

/-! ## Luminance and contrast bounds -/

lemma linearize_nonneg {c : ℤ} (h0 : 0 ≤ c) : 0 ≤ linearize c := by
  have hc : (0 : ℝ) ≤ (c : ℝ) := by exact_mod_cast h0
  have hs : (0 : ℝ) ≤ (c : ℝ) / 255 := by positivity
  simp only [linearize]
  split_ifs with h
  · positivity
  · exact Real.rpow_nonneg (div_nonneg (by linarith) (by norm_num)) _

lemma linearize_le_one {c : ℤ} (h0 : 0 ≤ c) (h1 : c ≤ 255) : linearize c ≤ 1 := by
  have hc : (c : ℝ) ≤ 255 := by exact_mod_cast h1
  have hc0 : (0 : ℝ) ≤ (c : ℝ) := by exact_mod_cast h0
  have hs : (c : ℝ) / 255 ≤ 1 := by rw [div_le_one (by norm_num)]; linarith
  have hs0 : (0 : ℝ) ≤ (c : ℝ) / 255 := by positivity
  simp only [linearize]
  split_ifs with h
  · rw [div_le_one (by norm_num)]
    linarith
  · refine Real.rpow_le_one (div_nonneg (by linarith) (by norm_num)) ?_ (by norm_num)
    rw [div_le_one (by norm_num)]
    linarith

lemma relativeLuminance_mem (rgb : RGB)
    (hr0 : 0 ≤ rgb.r) (hr1 : rgb.r ≤ 255) (hg0 : 0 ≤ rgb.g) (hg1 : rgb.g ≤ 255)
    (hb0 : 0 ≤ rgb.b) (hb1 : rgb.b ≤ 255) :
    0 ≤ relativeLuminance rgb ∧ relativeLuminance rgb ≤ 1 := by
  have h1 := linearize_nonneg hr0
  have h2 := linearize_nonneg hg0
  have h3 := linearize_nonneg hb0
  have h4 := linearize_le_one hr0 hr1
  have h5 := linearize_le_one hg0 hg1
  have h6 := linearize_le_one hb0 hb1
  rw [relativeLuminance]
  constructor <;> nlinarith

lemma relativeLuminance_white : relativeLuminance ⟨255, 255, 255⟩ = 1 := by
  have hlin : linearize 255 = 1 := by
    simp only [linearize]
    rw [if_neg (by norm_num)]
    rw [show (((255 : ℤ) : ℝ) / 255 + 0.055) / 1.055 = 1 by norm_num]
    exact Real.one_rpow _
  rw [relativeLuminance]
  simp only [hlin]
  norm_num

lemma relativeLuminance_black : relativeLuminance ⟨0, 0, 0⟩ = 0 := by
  have hlin : linearize 0 = 0 := by
    simp only [linearize]
    rw [if_pos (by norm_num)]
    norm_num
  rw [relativeLuminance]
  simp only [hlin]
  norm_num

lemma contrastRatio_white {bg : RGB} (hL1 : relativeLuminance bg ≤ 1) :
    contrastRatio bg ⟨255, 255, 255⟩ = 1.05 / (relativeLuminance bg + 0.05) := by
  simp only [contrastRatio]
  rw [relativeLuminance_white, max_eq_right hL1, min_eq_left hL1]
  norm_num

lemma contrastRatio_black {bg : RGB} (hL0 : 0 ≤ relativeLuminance bg) :
    contrastRatio bg ⟨0, 0, 0⟩ = (relativeLuminance bg + 0.05) / 0.05 := by
  simp only [contrastRatio]
  rw [relativeLuminance_black, max_eq_left hL0, min_eq_right hL0]
  norm_num

/-- The heart of the WCAG guarantee: whatever `chooseForeground` parses,
the foreground it picks has contrast ratio at least 4.5 against the
parsed background (the larger of the two candidate ratios is at least
`√21 ≈ 4.58`). -/
lemma chooseForeground_meets_AA {s : String} {bg : RGB} (hp : hexToRgb s = some bg)
    (hr0 : 0 ≤ bg.r) (hr1 : bg.r ≤ 255) (hg0 : 0 ≤ bg.g) (hg1 : bg.g ≤ 255)
    (hb0 : 0 ≤ bg.b) (hb1 : bg.b ≤ 255) :
    ∃ fg, hexToRgb (chooseForeground s) = some fg ∧ (4.5 : ℝ) ≤ contrastRatio bg fg := by
  obtain ⟨hL0, hL1⟩ := relativeLuminance_mem bg hr0 hr1 hg0 hg1 hb0 hb1
  have hw := contrastRatio_white hL1
  have hb := contrastRatio_black hL0
  have hd0 : (0 : ℝ) < relativeLuminance bg + 0.05 := by linarith
  unfold chooseForeground
  rw [hp]
  dsimp only
  split_ifs with hcond
  · refine ⟨⟨255, 255, 255⟩, by decide, ?_⟩
    rw [hw]
    rw [ge_iff_le, hb, hw, div_le_div_iff₀ (by norm_num) hd0] at hcond
    rw [le_div_iff₀ hd0]
    nlinarith [hcond, hL0]
  · refine ⟨⟨0, 0, 0⟩, by decide, ?_⟩
    rw [hb]
    rw [ge_iff_le, hb, hw] at hcond
    push_neg at hcond
    rw [div_lt_div_iff₀ hd0 (by norm_num)] at hcond
    rw [le_div_iff₀ (by norm_num)]
    nlinarith [hcond, hL0, hL1]

/-! ## Claim C10: the chosen foreground meets WCAG AA for every background -/

/-- C10: for every RGB background with integer channels in `[0, 255]`, the
foreground `chooseForeground` picks for its hex form has contrast ratio at
least 4.5 against it — the WCAG-AA bound holds for all backgrounds, not
only the generators' tuned ranges. -/
theorem chooseForeground_always_meets_AA (bg : RGB)
    (hr0 : 0 ≤ bg.r) (hr1 : bg.r ≤ 255) (hg0 : 0 ≤ bg.g) (hg1 : bg.g ≤ 255)
    (hb0 : 0 ≤ bg.b) (hb1 : bg.b ≤ 255) :
    ∃ fg, hexToRgb (chooseForeground (rgbToHex bg)) = some fg ∧
      (4.5 : ℝ) ≤ contrastRatio bg fg :=
  chooseForeground_meets_AA (hexToRgb_rgbToHex bg hr0 hr1 hg0 hg1 hb0 hb1)
    hr0 hr1 hg0 hg1 hb0 hb1

/-- C10, witness: the theorem applied at the background `{51, 102, 153}`. -/
theorem chooseForeground_always_meets_AA_witness :
    ∃ fg, hexToRgb (chooseForeground (rgbToHex ⟨51, 102, 153⟩)) = some fg ∧
      (4.5 : ℝ) ≤ contrastRatio ⟨51, 102, 153⟩ fg :=
  chooseForeground_always_meets_AA ⟨51, 102, 153⟩
    (by decide) (by decide) (by decide) (by decide) (by decide) (by decide)

/-! ## Claim C1: the tuned theme ranges meet WCAG AA -/

/-- C1: for every HSL whose saturation and lightness lie in the theme's
tuned ranges (any hue), the background `hslToHex hsl` parses back to the
rounded RGB, and the foreground chosen for it has contrast ratio at least
4.5 against that background. -/
theorem tunedRange_foreground_contrast_AA {K : Type} [LinearOrderedField K] [FloorRing K]
    (theme : ThemeKind) (hsl : HSL K)
    (hs1 : (themeSatRange (K := K) theme).1 ≤ hsl.s)
    (hs2 : hsl.s ≤ (themeSatRange (K := K) theme).2)
    (hl1 : (themeLightRange (K := K) theme).1 ≤ hsl.l)
    (hl2 : hsl.l ≤ (themeLightRange (K := K) theme).2) :
    ∃ bg fg, hexToRgb (hslToHex hsl) = some bg ∧
      hexToRgb (chooseForeground (hslToHex hsl)) = some fg ∧
      (4.5 : ℝ) ≤ contrastRatio bg fg := by
  have hb : 0 ≤ hsl.s ∧ hsl.s ≤ 100 ∧ 0 ≤ hsl.l ∧ hsl.l ≤ 100 := by
    cases theme <;> simp only [themeSatRange, themeLightRange] at hs1 hs2 hl1 hl2 <;>
      exact ⟨by linarith, by linarith, by linarith, by linarith⟩
  obtain ⟨b1, b2, b3, b4⟩ := hb
  obtain ⟨⟨c1, c2⟩, ⟨c3, c4⟩, c5, c6⟩ := hslToRgb_channel_bounds hsl b1 b2 b3 b4
  have hrt : hexToRgb (hslToHex hsl) = some (hslToRgb hsl) := by
    rw [hslToHex]
    exact hexToRgb_rgbToHex _ c1 c2 c3 c4 c5 c6
  obtain ⟨fg, hfg, hcr⟩ :=
    chooseForeground_meets_AA (s := hslToHex hsl) hrt c1 c2 c3 c4 c5 c6
  exact ⟨hslToRgb hsl, fg, hrt, hfg, hcr⟩

/-- C1, witness: the theorem applied at `{h := 0, s := 20, l := 12}` for
the Dark theme (the lower corner of the Dark range). -/
theorem tunedRange_foreground_contrast_AA_witness :
    ∃ bg fg, hexToRgb (hslToHex (K := ℚ) ⟨0, 20, 12⟩) = some bg ∧
      hexToRgb (chooseForeground (hslToHex (K := ℚ) ⟨0, 20, 12⟩)) = some fg ∧
      (4.5 : ℝ) ≤ contrastRatio bg fg :=
  tunedRange_foreground_contrast_AA ThemeKind.Dark ⟨0, 20, 12⟩
    (by decide) (by decide) (by decide) (by decide)
